import Mathlib

/-!
Verification of the Planscape Map Workspace Coordination Engine
(`src/interface/src/app/map/map.component.ts`).

The component's state and operations are shallowly embedded: the per-map
render-engine effects issued through `MapManager` (attach/detach drawing
control, enable/disable the polygon tool, show/hide the cloned drawing)
are modelled as boolean flags per map; calls to the session service are
recorded in an append-only write log; snackbar notices are recorded in an
append-only message log.
-/

namespace Planscape

/-- Area-creation actions, from the `AreaCreationAction` enum in
`map.component.ts` (NONE = 0, DRAW = 1, UPLOAD = 2). -/
inductive AreaCreationAction where
  | NONE
  | DRAW
  | UPLOAD
deriving DecidableEq, Repr

/-- Modelled from the spec: `ViewOptions` (`MapViewOptions` in the source;
its type declaration is not under src/) carries `selectedViewportIndex`
and `numVisibleViewports`, named `selectedMapIndex` / `numVisibleMaps`
at the use sites in `map.component.ts`. -/
structure MapViewOptions where
  selectedMapIndex : Nat
  numVisibleMaps : Nat
deriving DecidableEq, Repr

/-- Modelled from the spec: a boundary-layer catalog entry. The source type
declaration is not under src/; `map.component.ts` reads its
`boundary_name` field, and the spec says entries carry a name and a
payload (payloads of two same-named entries may differ). -/
structure BoundaryConfig where
  boundary_name : Option String
  payload : String
deriving DecidableEq, Repr

/-- Modelled from the spec: the "none boundary" sentinel
(`NONE_BOUNDARY_CONFIG` in the source, declaration not under src/). -/
def NONE_BOUNDARY_CONFIG : BoundaryConfig :=
  { boundary_name := none, payload := "" }

/-- Modelled from the spec: `DataLayerConfig` (declaration not under src/);
`map.component.ts` reads `display_name`, `filepath`, `colormap`,
`normalized` on it. -/
structure DataLayerConfig where
  display_name : Option String
  filepath : Option String
  colormap : Option String
  normalized : Bool
deriving DecidableEq, Repr

/-- The per-map configuration (`MapConfig`): the fields `map.component.ts`
reads and writes. Remaining fields of the source type (base-layer type,
overlay toggles) are not touched by the operations verified here. -/
structure MapConfig where
  dataLayerConfig : DataLayerConfig
  boundaryLayerConfig : BoundaryConfig
deriving DecidableEq, Repr

/-- One map viewport (`Map` in the source). `drawingControlAttached`,
`polygonToolEnabled` and `clonedDrawingVisible` model the render-engine
state driven through `MapManager.addDrawingControl` /
`removeDrawingControl`, `enablePolygonDrawingTool` /
`disablePolygonDrawingTool`, `showClonedDrawing` / `hideClonedDrawing`. -/
structure Map where
  id : String
  name : String
  config : MapConfig
  drawingControlAttached : Bool
  polygonToolEnabled : Bool
  clonedDrawingVisible : Bool
deriving DecidableEq, Repr

/-- A GeoJSON value as far as the component inspects it: its structural
`type` tag plus opaque content. -/
structure GeoJson where
  type : String
  content : String
deriving DecidableEq, Repr

/-- One write issued to the session service (`setMapViewOptions` /
`setMapConfigs`). -/
inductive SessionWrite where
  | viewOptions (o : MapViewOptions)
  | mapConfigs (cs : List MapConfig)
deriving DecidableEq, Repr

/-- The component state acted on by the embedded operations. -/
structure WorkspaceState where
  mapViewOptions : MapViewOptions
  maps : List Map
  selectedAreaCreationAction : AreaCreationAction
  showUploader : Bool
  showConfirmAreaButton : Bool
  drawnPolygons : List GeoJson
  snackbarMessages : List String
  sessionWrites : List SessionWrite
deriving DecidableEq, Repr

/- MapManager per-map effects. -/

def addDrawingControl (m : Map) : Map :=
  { m with drawingControlAttached := true }

def removeDrawingControl (m : Map) : Map :=
  { m with drawingControlAttached := false }

def enablePolygonDrawingTool (m : Map) : Map :=
  { m with polygonToolEnabled := true }

def disablePolygonDrawingTool (m : Map) : Map :=
  { m with polygonToolEnabled := false }

def showClonedDrawing (m : Map) : Map :=
  { m with clonedDrawingVisible := true }

def hideClonedDrawing (m : Map) : Map :=
  { m with clonedDrawingVisible := false }

/-- Apply `g` to the element at index `k` (the embedding of a mutation of
`this.maps[k]`). -/
def listModify {α : Type} (g : α → α) : Nat → List α → List α
  | _, [] => []
  | 0, x :: xs => g x :: xs
  | k + 1, x :: xs => x :: listModify g k xs

/-- Apply an index-aware function to every element (the embedding of
`this.maps.forEach` together with `this.maps.indexOf(map)`). -/
def mapWithIndexFrom {α : Type} (g : Nat → α → α) : Nat → List α → List α
  | _, [] => []
  | i, x :: xs => g i x :: mapWithIndexFrom g (i + 1) xs

def mapWithIndex {α : Type} (g : Nat → α → α) (xs : List α) : List α :=
  mapWithIndexFrom g 0 xs

def modifyMap (k : Nat) (g : Map → Map) (st : WorkspaceState) : WorkspaceState :=
  { st with maps := listModify g k st.maps }

/-- `selectMap(mapIndex)` from `map.component.ts` (lines 561-587): if the
index differs from the current `selectedMapIndex`, update the view
options, push them to the session service, and — when the DRAW action is
active or a confirmable shape exists — move the drawing control from the
previously selected map to the newly selected one, showing a cloned
drawing on the old map and hiding the clone on the new one. -/
def selectMap (mapIndex : Nat) (st : WorkspaceState) : WorkspaceState :=
  let previousMapIndex := st.mapViewOptions.selectedMapIndex
  if previousMapIndex ≠ mapIndex then
    let newOptions := { st.mapViewOptions with selectedMapIndex := mapIndex }
    let st1 : WorkspaceState :=
      { st with
        mapViewOptions := newOptions,
        sessionWrites := st.sessionWrites ++ [SessionWrite.viewOptions newOptions] }
    if st1.selectedAreaCreationAction = AreaCreationAction.DRAW ∨
        st1.showConfirmAreaButton = true then
      modifyMap mapIndex (fun m => hideClonedDrawing (addDrawingControl m))
        (modifyMap previousMapIndex
          (fun m => showClonedDrawing (removeDrawingControl (disablePolygonDrawingTool m)))
          st1)
    else
      st1
  else
    st

/-- `changeMapCount(mapCount)` (lines 547-558): stores the argument into
`numVisibleMaps` with no validation. The subsequent `invalidateSize` /
nameplate recalculation are render-engine effects outside the state. -/
def changeMapCount (mapCount : Nat) (st : WorkspaceState) : WorkspaceState :=
  { st with mapViewOptions := { st.mapViewOptions with numVisibleMaps := mapCount } }

/-- `isMapVisible(index)` (lines 594-613): the selected map is always
visible; otherwise 4-map mode shows all, 1-map mode shows none other,
and 2-map mode (also the `default` switch branch) shows the pair sharing
`floor(index / 2)` with the selected index. -/
def isMapVisible (opts : MapViewOptions) (index : Nat) : Bool :=
  if index = opts.selectedMapIndex then
    true
  else
    match opts.numVisibleMaps with
    | 4 => true
    | 1 => false
    | _ => decide (opts.selectedMapIndex / 2 = index / 2)

/-- `mapRowHeight(index)` (lines 619-634). -/
def mapRowHeight (opts : MapViewOptions) (index : Nat) : String :=
  match opts.numVisibleMaps with
  | 4 => "50%"
  | _ => if opts.selectedMapIndex / 2 = index then "100%" else "0%"

/-- The writes issued by the `sessionInterval$` subscription installed in
`ngOnInit` (lines 203-214): each tick writes the current view options and
then the ordered list of all map configs. -/
def sessionIntervalTickWrites (st : WorkspaceState) : List SessionWrite :=
  [SessionWrite.viewOptions st.mapViewOptions,
   SessionWrite.mapConfigs (st.maps.map (fun m => m.config))]

/-- The session writes issued by `ngOnDestroy` (lines 223-228): after
releasing the map instances it writes only the map configs. -/
def ngOnDestroyWrites (st : WorkspaceState) : List SessionWrite :=
  [SessionWrite.mapConfigs (st.maps.map (fun m => m.config))]

/- A small concrete state, mirroring the constructor's initialization of
four maps `map1` .. `map4` with default configs. -/

def demoDataLayerConfig : DataLayerConfig :=
  { display_name := none, filepath := none, colormap := none, normalized := false }

def demoMapConfig : MapConfig :=
  { dataLayerConfig := demoDataLayerConfig, boundaryLayerConfig := NONE_BOUNDARY_CONFIG }

def demoMap (i : String) (nm : String) : Map :=
  { id := i, name := nm, config := demoMapConfig,
    drawingControlAttached := false, polygonToolEnabled := false,
    clonedDrawingVisible := false }

def demoState : WorkspaceState :=
  { mapViewOptions := { selectedMapIndex := 0, numVisibleMaps := 4 },
    maps := [demoMap "map1" "Map 1", demoMap "map2" "Map 2",
             demoMap "map3" "Map 3", demoMap "map4" "Map 4"],
    selectedAreaCreationAction := AreaCreationAction.NONE,
    showUploader := false,
    showConfirmAreaButton := false,
    drawnPolygons := [],
    snackbarMessages := [],
    sessionWrites := [] }

/-- A concrete state with an active drawing session (DRAW selected). -/
def demoDrawState : WorkspaceState :=
  { demoState with selectedAreaCreationAction := AreaCreationAction.DRAW }

/-- The persisted (stale) map config of the HUC12 restore scenario. -/
def huc12PersistedConfig : MapConfig :=
  { demoMapConfig with boundaryLayerConfig :=
      { boundary_name := some "HUC12", payload := "stale persisted payload" } }

/-- The fresher HUC12 catalog entry, same name but different payload. -/
def huc12CatalogEntry : BoundaryConfig :=
  { boundary_name := some "HUC12", payload := "fresh catalog payload" }

/-- The sequences of operations considered for the `numVisibleMaps`
invariant: selections and visible-count changes. -/
inductive WorkspaceOp where
  | select (i : Nat)
  | changeCount (n : Nat)
deriving DecidableEq, Repr

def applyOp (st : WorkspaceState) (op : WorkspaceOp) : WorkspaceState :=
  match op with
  | WorkspaceOp.select i => selectMap i st
  | WorkspaceOp.changeCount n => changeMapCount n st

def runOps (st : WorkspaceState) (ops : List WorkspaceOp) : WorkspaceState :=
  ops.foldl applyOp st

/-- Recognizer for `setMapViewOptions` writes in a session write log. -/
def isViewOptionsWrite : SessionWrite → Bool
  | SessionWrite.viewOptions _ => true
  | SessionWrite.mapConfigs _ => false

/- Session restore (`restoreSession`, lines 230-262). -/

/-- Positional application of a persisted config list
(`mapConfigs.forEach((mapConfig, index) => maps[index].config = mapConfig)`).
Configs beyond the number of existing maps have no map to assign to. -/
def applyConfigsPositionally : List MapConfig → List Map → List Map
  | [], ms => ms
  | _ :: _, [] => []
  | c :: cs, m :: ms => { m with config := c } :: applyConfigsPositionally cs ms

/-- Phase 1 of `restoreSession`: apply the persisted view options if
present, then the persisted config list positionally if present. -/
def restoreApplyPersisted (persistedOpts : Option MapViewOptions)
    (persistedConfigs : Option (List MapConfig)) (st : WorkspaceState) :
    WorkspaceState :=
  let st1 := match persistedOpts with
    | some o => { st with mapViewOptions := o }
    | none => st
  match persistedConfigs with
  | some cs => { st1 with maps := applyConfigsPositionally cs st1.maps }
  | none => st1

/-- The reconciliation of one persisted boundary name against the catalog:
`config?.find(boundary => boundary.boundary_name === ...)` with the
`NONE_BOUNDARY_CONFIG` fallback. -/
def lookupBoundary (catalog : List BoundaryConfig) (name : Option String) :
    BoundaryConfig :=
  match catalog.find? (fun b => b.boundary_name == name) with
  | some b => b
  | none => NONE_BOUNDARY_CONFIG

/-- Phase 2 of `restoreSession`: once the boundary catalog arrives, each
map's boundary selection is replaced by the catalog entry whose
`boundary_name` matches the (persisted) selection's name, or by
`NONE_BOUNDARY_CONFIG` when no entry matches. -/
def reconcileBoundaries (catalog : List BoundaryConfig) (st : WorkspaceState) :
    WorkspaceState :=
  { st with maps := st.maps.map (fun m =>
      { m with config := { m.config with
          boundaryLayerConfig :=
            lookupBoundary catalog m.config.boundaryLayerConfig.boundary_name } }) }

/-- The full two-phase `restoreSession`: persisted state first, boundary
reconciliation once the asynchronously loaded catalog becomes available. -/
def restoreSession (persistedOpts : Option MapViewOptions)
    (persistedConfigs : Option (List MapConfig)) (catalog : List BoundaryConfig)
    (st : WorkspaceState) : WorkspaceState :=
  reconcileBoundaries catalog (restoreApplyPersisted persistedOpts persistedConfigs st)

/- Shapefile upload (`loadArea`, lines 456-489). -/

/-- `showUploadError`: the `InvalidShapeArchive` user-visible notice. -/
def showUploadError (st : WorkspaceState) : WorkspaceState :=
  { st with snackbarMessages :=
      st.snackbarMessages ++ ["[Error] Not a valid shapefile!"] }

/-- `addDrawingControlToAllMaps` (lines 440-453): the selected map gets the
drawing control, every other map shows the cloned drawing. -/
def addDrawingControlToAllMaps (st : WorkspaceState) : WorkspaceState :=
  { st with maps := mapWithIndex (fun i m =>
      if st.mapViewOptions.selectedMapIndex = i then addDrawingControl m
      else showClonedDrawing m) st.maps }

/-- `loadArea(event)`: `fileGiven` models the `if (file)` guard and
`parsed` the outcome of `shp.parseZip` (`Except.error` for a thrown parse
failure). Only a parsed `FeatureCollection` is installed into the drawing
session; anything else produces the upload-error notice and nothing
else. -/
def loadArea (fileGiven : Bool) (parsed : Except Unit GeoJson)
    (st : WorkspaceState) : WorkspaceState :=
  if fileGiven then
    match parsed with
    | Except.ok geojson =>
      if geojson.type = "FeatureCollection" then
        addDrawingControlToAllMaps
          { st with
            drawnPolygons := st.drawnPolygons ++ [geojson],
            showUploader := false }
      else
        showUploadError st
    | Except.error _ => showUploadError st
  else
    st

/- Plan creation (`createPlan`, lines 373-404). -/

/-- A request sent to `planService.createPlan`. -/
structure PlanCreateRequest where
  name : String
  ownerId : String
  region : String
  planningArea : GeoJson
deriving DecidableEq, Repr

/-- The outcome the external plan service returns for a create request. -/
inductive PlanServiceResult where
  | ok (id : Nat)
  | err
deriving DecidableEq, Repr

/-- The observable effects of one `createPlan` call: snackbar notices,
requests issued to the plan service, and router navigations. -/
structure CreatePlanEffects where
  snackbarMessages : List String
  serviceCalls : List PlanCreateRequest
  navigations : List (List String)
deriving DecidableEq, Repr

/-- `createPlan(name, shape)`: with no selected region it shows a local
error and returns before any service call; otherwise it issues exactly
one request and either navigates to the created plan or surfaces the
backend error as a notice. -/
def createPlan (name : String) (shape : GeoJson) (selectedRegion : Option String)
    (serviceResult : PlanServiceResult) : CreatePlanEffects :=
  match selectedRegion with
  | none =>
    { snackbarMessages := ["[Error] Please select a region!"],
      serviceCalls := [], navigations := [] }
  | some region =>
    let request : PlanCreateRequest :=
      { name := name, ownerId := "tempUserId", region := region,
        planningArea := shape }
    match serviceResult with
    | PlanServiceResult.ok planId =>
      { snackbarMessages := [], serviceCalls := [request],
        navigations := [["plan", toString planId]] }
    | PlanServiceResult.err =>
      { snackbarMessages := ["[Error] Unable to create plan due to backend error."],
        serviceCalls := [request], navigations := [] }

/- The condition-layer tree (`ConditionsNode` in `map.component.ts`): a
recursive node with the `DataLayerConfig` payload fields, the transient
UI flags, and an ordered forest of children. The forest is its own
inductive so the mutual recursion of the source's tree walks is plain
structural recursion. -/

mutual
inductive ConditionsNode where
  | mk (display_name : Option String) (filepath : Option String)
      (colormap : Option String) (normalized : Bool) (disableSelect : Bool)
      (styleDisabled : Bool) (children : ConditionsForest) : ConditionsNode
inductive ConditionsForest where
  | nil : ConditionsForest
  | cons (head : ConditionsNode) (tail : ConditionsForest) : ConditionsForest
end

def ConditionsNode.filepath : ConditionsNode → Option String
  | ConditionsNode.mk _ fp _ _ _ _ _ => fp

def ConditionsNode.styleDisabled : ConditionsNode → Bool
  | ConditionsNode.mk _ _ _ _ _ sd _ => sd

def ConditionsNode.children : ConditionsNode → ConditionsForest
  | ConditionsNode.mk _ _ _ _ _ _ cs => cs

/-- Modelled from the spec: the sentinel "none" node
(`NONE_DATA_LAYER_CONFIG` in the source, declaration not under src/);
its `filepath` is undefined. -/
def NONE_DATA_LAYER_CONFIG : ConditionsNode :=
  ConditionsNode.mk (some "None") none none false false false
    ConditionsForest.nil

/- `unstyleAllNodes` (lines 653-662): clear `styleDisabled` on a node and
recursively on its children; the argument-less source call iterates the
whole `conditionDataSource.data` forest. -/

mutual
def unstyleNode : ConditionsNode → ConditionsNode
  | ConditionsNode.mk d fp cm nz ds _ cs =>
      ConditionsNode.mk d fp cm nz ds false (unstyleForest cs)
def unstyleForest : ConditionsForest → ConditionsForest
  | ConditionsForest.nil => ConditionsForest.nil
  | ConditionsForest.cons x xs =>
      ConditionsForest.cons (unstyleNode x) (unstyleForest xs)
end

/- The inner effect of `styleDescendantsDisabled` (lines 667-672) on each
child: set `styleDisabled = true` and recurse. -/

mutual
def setStyledNode : ConditionsNode → ConditionsNode
  | ConditionsNode.mk d fp cm nz ds _ cs =>
      ConditionsNode.mk d fp cm nz ds true (setStyledForest cs)
def setStyledForest : ConditionsForest → ConditionsForest
  | ConditionsForest.nil => ConditionsForest.nil
  | ConditionsForest.cons x xs =>
      ConditionsForest.cons (setStyledNode x) (setStyledForest xs)
end

/-- `styleDescendantsDisabled(node)`: every strict descendant of the node
gets `styleDisabled = true`; the node's own flag is untouched. -/
def styleDescendantsDisabled : ConditionsNode → ConditionsNode
  | ConditionsNode.mk d fp cm nz ds sd cs =>
      ConditionsNode.mk d fp cm nz ds sd (setStyledForest cs)

/- Paths into a forest: a node is addressed by the index of its root among
the forest's trees followed by child indices. `getAt` reads the node at a
path; `modifyAt` applies a function to it in place, the embedding of the
source's mutation of a node held by reference. -/

mutual
def getAtForest : ConditionsForest → Nat → List Nat → Option ConditionsNode
  | ConditionsForest.nil, _, _ => none
  | ConditionsForest.cons x _, 0, rest => getAtNode x rest
  | ConditionsForest.cons _ xs, k + 1, rest => getAtForest xs k rest
def getAtNode : ConditionsNode → List Nat → Option ConditionsNode
  | n, [] => some n
  | ConditionsNode.mk _ _ _ _ _ _ cs, k :: rest => getAtForest cs k rest
end

mutual
def modifyAtForest (h : ConditionsNode → ConditionsNode) :
    ConditionsForest → Nat → List Nat → ConditionsForest
  | ConditionsForest.nil, _, _ => ConditionsForest.nil
  | ConditionsForest.cons x xs, 0, rest =>
      ConditionsForest.cons (modifyAtNode h x rest) xs
  | ConditionsForest.cons x xs, k + 1, rest =>
      ConditionsForest.cons x (modifyAtForest h xs k rest)
def modifyAtNode (h : ConditionsNode → ConditionsNode) :
    ConditionsNode → List Nat → ConditionsNode
  | n, [] => h n
  | ConditionsNode.mk d fp cm nz ds sd cs, k :: rest =>
      ConditionsNode.mk d fp cm nz ds sd (modifyAtForest h cs k rest)
end

/-- `onSelect(node)` (lines 674-677), with the selected node addressed by
the path `k :: rest`: `unstyleAllNodes()` over the whole forest followed
by `styleDescendantsDisabled(node)`. -/
def onSelectAt (data : ConditionsForest) (k : Nat) (rest : List Nat) :
    ConditionsForest :=
  modifyAtForest styleDescendantsDisabled (unstyleForest data) k rest

/-- Membership of a node among a forest's roots. -/
def memF (n : ConditionsNode) : ConditionsForest → Prop
  | ConditionsForest.nil => False
  | ConditionsForest.cons x xs => n = x ∨ memF n xs

/-- The expand requests reported by the bounded-depth search are a correct
ancestor chain for the returned node `n`: empty for a top-level match,
`[tree]` for a pillar match, `[tree, pillar]` for an element match and
`[tree, pillar, element]` for a metric match, each listed ancestor
containing the next and the last containing `n`. -/
def ancestorChainOk (data : ConditionsForest) (n : ConditionsNode) :
    List ConditionsNode → Prop
  | [] => memF n data
  | [t] => memF t data ∧ memF n t.children
  | [t, p] => memF t data ∧ memF p t.children ∧ memF n p.children
  | [t, p, e] => memF t data ∧ memF p t.children ∧ memF e p.children ∧
      memF n e.children
  | _ => False

/- Depth-bounded occurrence of a filepath, mirroring the four nested loops
of `findAndRevealNodeWithFilepath`: used to state the unmatched case. -/

def fpInMetrics (fp : String) : ConditionsForest → Bool
  | ConditionsForest.nil => false
  | ConditionsForest.cons m ms =>
      if m.filepath = some fp then true else fpInMetrics fp ms

def fpInElements (fp : String) : ConditionsForest → Bool
  | ConditionsForest.nil => false
  | ConditionsForest.cons e es =>
      if e.filepath = some fp then true
      else if fpInMetrics fp e.children then true else fpInElements fp es

def fpInPillars (fp : String) : ConditionsForest → Bool
  | ConditionsForest.nil => false
  | ConditionsForest.cons p ps =>
      if p.filepath = some fp then true
      else if fpInElements fp p.children then true else fpInPillars fp ps

def fpInTrees (fp : String) : ConditionsForest → Bool
  | ConditionsForest.nil => false
  | ConditionsForest.cons t ts =>
      if t.filepath = some fp then true
      else if fpInPillars fp t.children then true else fpInTrees fp ts

/- `findAndRevealNodeWithFilepath` (lines 738-774): four nested loops over
tree → pillar → element → metric depth. Each loop is one function; the
pair's second component collects the `conditionTreeControl.expand`
requests issued before returning the match. -/

def findMetricLoop (fp : String) (tree pillar element : ConditionsNode) :
    ConditionsForest → Option (ConditionsNode × List ConditionsNode)
  | ConditionsForest.nil => none
  | ConditionsForest.cons metric ms =>
      if metric.filepath = some fp then some (metric, [tree, pillar, element])
      else findMetricLoop fp tree pillar element ms

def findElementLoop (fp : String) (tree pillar : ConditionsNode) :
    ConditionsForest → Option (ConditionsNode × List ConditionsNode)
  | ConditionsForest.nil => none
  | ConditionsForest.cons element es =>
      if element.filepath = some fp then some (element, [tree, pillar])
      else
        match findMetricLoop fp tree pillar element element.children with
        | some r => some r
        | none => findElementLoop fp tree pillar es

def findPillarLoop (fp : String) (tree : ConditionsNode) :
    ConditionsForest → Option (ConditionsNode × List ConditionsNode)
  | ConditionsForest.nil => none
  | ConditionsForest.cons pillar ps =>
      if pillar.filepath = some fp then some (pillar, [tree])
      else
        match findElementLoop fp tree pillar pillar.children with
        | some r => some r
        | none => findPillarLoop fp tree ps

def findTreeLoop (fp : String) :
    ConditionsForest → Option (ConditionsNode × List ConditionsNode)
  | ConditionsForest.nil => none
  | ConditionsForest.cons tree ts =>
      if tree.filepath = some fp then some (tree, [])
      else
        match findPillarLoop fp tree tree.children with
        | some r => some r
        | none => findTreeLoop fp ts

/-- `findAndRevealNodeWithFilepath(filepath)`: the sentinel is returned for
an undefined or empty filepath (the JS falsiness guard `!filepath`), for
a filepath equal to the sentinel's own, and when the bounded-depth search
finds nothing; otherwise the first match together with its expand
requests. -/
def findAndRevealNodeWithFilepath (data : ConditionsForest)
    (filepath : Option String) : ConditionsNode × List ConditionsNode :=
  match filepath with
  | none => (NONE_DATA_LAYER_CONFIG, [])
  | some fp =>
    if fp = "" ∨ some fp = NONE_DATA_LAYER_CONFIG.filepath then
      (NONE_DATA_LAYER_CONFIG, [])
    else
      match findTreeLoop fp data with
      | some r => r
      | none => (NONE_DATA_LAYER_CONFIG, [])

/- A small concrete condition tree with one pillar, one element and one
metric, used by the witnesses. -/

def demoMetric : ConditionsNode :=
  ConditionsNode.mk (some "Metric A") (some "t/p/e/m") (some "viridis")
    false false false ConditionsForest.nil

def demoElement : ConditionsNode :=
  ConditionsNode.mk (some "Element E") (some "t/p/e") none false true false
    (ConditionsForest.cons demoMetric ConditionsForest.nil)

def demoPillar : ConditionsNode :=
  ConditionsNode.mk (some "Pillar P") (some "t/p") none false true false
    (ConditionsForest.cons demoElement ConditionsForest.nil)

def demoTree : ConditionsNode :=
  ConditionsNode.mk (some "Current condition") (some "t") none false true false
    (ConditionsForest.cons demoPillar ConditionsForest.nil)

def demoForest : ConditionsForest :=
  ConditionsForest.cons NONE_DATA_LAYER_CONFIG
    (ConditionsForest.cons demoTree ConditionsForest.nil)

/- Lemmas about the condition-tree operations. -/

theorem unstyleNode_styleDisabled (n : ConditionsNode) :
    (unstyleNode n).styleDisabled = false := by
  cases n
  rfl

theorem setStyledNode_styleDisabled (n : ConditionsNode) :
    (setStyledNode n).styleDisabled = true := by
  cases n
  rfl

theorem styleDescendantsDisabled_styleDisabled (n : ConditionsNode) :
    (styleDescendantsDisabled n).styleDisabled = n.styleDisabled := by
  cases n
  rfl

mutual
theorem getAt_unstyleForest : ∀ (f : ConditionsForest) (k : Nat) (rest : List Nat),
    getAtForest (unstyleForest f) k rest = (getAtForest f k rest).map unstyleNode
  | ConditionsForest.nil, _, _ => by simp [unstyleForest, getAtForest]
  | ConditionsForest.cons x _, 0, rest => by
      simpa [unstyleForest, getAtForest] using getAt_unstyleNode x rest
  | ConditionsForest.cons _ xs, k + 1, rest => by
      simpa [unstyleForest, getAtForest] using getAt_unstyleForest xs k rest
theorem getAt_unstyleNode : ∀ (n : ConditionsNode) (rest : List Nat),
    getAtNode (unstyleNode n) rest = (getAtNode n rest).map unstyleNode
  | n, [] => by cases n; simp [getAtNode, unstyleNode]
  | ConditionsNode.mk _ _ _ _ _ _ cs, k :: rest => by
      simpa [unstyleNode, getAtNode] using getAt_unstyleForest cs k rest
end

mutual
theorem getAt_setStyledForest : ∀ (f : ConditionsForest) (k : Nat) (rest : List Nat),
    getAtForest (setStyledForest f) k rest = (getAtForest f k rest).map setStyledNode
  | ConditionsForest.nil, _, _ => by simp [setStyledForest, getAtForest]
  | ConditionsForest.cons x _, 0, rest => by
      simpa [setStyledForest, getAtForest] using getAt_setStyledNode x rest
  | ConditionsForest.cons _ xs, k + 1, rest => by
      simpa [setStyledForest, getAtForest] using getAt_setStyledForest xs k rest
theorem getAt_setStyledNode : ∀ (n : ConditionsNode) (rest : List Nat),
    getAtNode (setStyledNode n) rest = (getAtNode n rest).map setStyledNode
  | n, [] => by cases n; simp [getAtNode, setStyledNode]
  | ConditionsNode.mk _ _ _ _ _ _ cs, k :: rest => by
      simpa [setStyledNode, getAtNode] using getAt_setStyledForest cs k rest
end

mutual
theorem getAt_modifyAtForest_below (h : ConditionsNode → ConditionsNode) :
    ∀ (f : ConditionsForest) (k : Nat) (rest ex : List Nat),
      getAtForest (modifyAtForest h f k rest) k (rest ++ ex) =
        (getAtForest f k rest).bind (fun n => getAtNode (h n) ex)
  | ConditionsForest.nil, _, _, _ => by simp [modifyAtForest, getAtForest]
  | ConditionsForest.cons x _, 0, rest, ex => by
      simpa [modifyAtForest, getAtForest] using getAt_modifyAtNode_below h x rest ex
  | ConditionsForest.cons _ xs, k + 1, rest, ex => by
      simpa [modifyAtForest, getAtForest] using getAt_modifyAtForest_below h xs k rest ex
theorem getAt_modifyAtNode_below (h : ConditionsNode → ConditionsNode) :
    ∀ (n : ConditionsNode) (rest ex : List Nat),
      getAtNode (modifyAtNode h n rest) (rest ++ ex) =
        (getAtNode n rest).bind (fun m => getAtNode (h m) ex)
  | n, [], ex => by simp [modifyAtNode, getAtNode]
  | ConditionsNode.mk _ _ _ _ _ _ cs, k :: rest, ex => by
      simpa [modifyAtNode, getAtNode] using getAt_modifyAtForest_below h cs k rest ex
end

mutual
theorem flag_modifyAtForest_ne (h : ConditionsNode → ConditionsNode) :
    ∀ (f : ConditionsForest) (k : Nat) (rest : List Nat) (j : Nat) (q : List Nat),
      ¬(j = k ∧ rest <+: q) →
      (getAtForest (modifyAtForest h f k rest) j q).map ConditionsNode.styleDisabled =
        (getAtForest f j q).map ConditionsNode.styleDisabled
  | ConditionsForest.nil, _, _, _, _ => by simp [modifyAtForest]
  | ConditionsForest.cons x xs, 0, rest, 0, q => fun hne => by
      have hq : ¬(rest <+: q) := fun hp => hne ⟨rfl, hp⟩
      simpa [modifyAtForest, getAtForest] using flag_modifyAtNode_ne h x rest q hq
  | ConditionsForest.cons x xs, 0, rest, j + 1, q => fun _ => by
      simp [modifyAtForest, getAtForest]
  | ConditionsForest.cons x xs, k + 1, rest, 0, q => fun _ => by
      simp [modifyAtForest, getAtForest]
  | ConditionsForest.cons x xs, k + 1, rest, j + 1, q => fun hne => by
      have hne2 : ¬(j = k ∧ rest <+: q) := fun hp => hne ⟨by omega, hp.2⟩
      simpa [modifyAtForest, getAtForest] using
        flag_modifyAtForest_ne h xs k rest j q hne2
theorem flag_modifyAtNode_ne (h : ConditionsNode → ConditionsNode) :
    ∀ (n : ConditionsNode) (rest q : List Nat),
      ¬(rest <+: q) →
      (getAtNode (modifyAtNode h n rest) q).map ConditionsNode.styleDisabled =
        (getAtNode n q).map ConditionsNode.styleDisabled
  | _, [], _, hne => absurd List.nil_prefix hne
  | ConditionsNode.mk _ _ _ _ _ _ _, k :: rest, [], _ => by
      simp [modifyAtNode, getAtNode, ConditionsNode.styleDisabled]
  | ConditionsNode.mk _ _ _ _ _ _ cs, k :: rest, a :: q, hne => by
      have hne2 : ¬(a = k ∧ rest <+: q) := by
        intro hp
        exact hne (by simpa [List.cons_prefix_cons, hp.1] using hp.2)
      simpa [modifyAtNode, getAtNode] using flag_modifyAtForest_ne h cs k rest a q hne2
end

mutual
theorem unstyleForest_unstyleForest : ∀ (f : ConditionsForest),
    unstyleForest (unstyleForest f) = unstyleForest f
  | ConditionsForest.nil => rfl
  | ConditionsForest.cons x xs => by
      simp [unstyleForest, unstyleNode_unstyleNode x, unstyleForest_unstyleForest xs]
theorem unstyleNode_unstyleNode : ∀ (n : ConditionsNode),
    unstyleNode (unstyleNode n) = unstyleNode n
  | ConditionsNode.mk _ _ _ _ _ _ cs => by
      simp [unstyleNode, unstyleForest_unstyleForest cs]
end

mutual
theorem unstyleForest_setStyledForest : ∀ (f : ConditionsForest),
    unstyleForest (setStyledForest f) = unstyleForest f
  | ConditionsForest.nil => rfl
  | ConditionsForest.cons x xs => by
      simp [setStyledForest, unstyleForest, unstyleNode_setStyledNode x,
        unstyleForest_setStyledForest xs]
theorem unstyleNode_setStyledNode : ∀ (n : ConditionsNode),
    unstyleNode (setStyledNode n) = unstyleNode n
  | ConditionsNode.mk _ _ _ _ _ _ cs => by
      simp [setStyledNode, unstyleNode, unstyleForest_setStyledForest cs]
end

theorem unstyleNode_styleDescendantsDisabled (n : ConditionsNode) :
    unstyleNode (styleDescendantsDisabled n) = unstyleNode n := by
  cases n with
  | mk d fp cm nz ds sd cs =>
    simp [styleDescendantsDisabled, unstyleNode, unstyleForest_setStyledForest cs]

mutual
theorem unstyleForest_modifyAtForest :
    ∀ (f : ConditionsForest) (k : Nat) (rest : List Nat),
      unstyleForest (modifyAtForest styleDescendantsDisabled f k rest) =
        unstyleForest f
  | ConditionsForest.nil, _, _ => rfl
  | ConditionsForest.cons x xs, 0, rest => by
      simp [modifyAtForest, unstyleForest, unstyleNode_modifyAtNode x rest]
  | ConditionsForest.cons x xs, k + 1, rest => by
      simp [modifyAtForest, unstyleForest, unstyleForest_modifyAtForest xs k rest]
theorem unstyleNode_modifyAtNode :
    ∀ (n : ConditionsNode) (rest : List Nat),
      unstyleNode (modifyAtNode styleDescendantsDisabled n rest) = unstyleNode n
  | ConditionsNode.mk _ _ _ _ _ _ cs, [] => by
      simp [modifyAtNode, styleDescendantsDisabled, unstyleNode,
        unstyleForest_setStyledForest cs]
  | ConditionsNode.mk _ _ _ _ _ _ cs, k :: rest => by
      simp [modifyAtNode, unstyleNode, unstyleForest_modifyAtForest cs k rest]
end

/- Basic lemmas about the indexed-update helper. -/

theorem listModify_getElem_self {α : Type} (g : α → α) :
    ∀ (k : Nat) (l : List α), (listModify g k l)[k]? = (l[k]?).map g
  | _, [] => by simp [listModify]
  | 0, x :: xs => by simp [listModify]
  | k + 1, x :: xs => by simpa [listModify] using listModify_getElem_self g k xs

theorem listModify_getElem_ne {α : Type} (g : α → α) :
    ∀ (j k : Nat) (l : List α), j ≠ k → (listModify g k l)[j]? = l[j]?
  | _, _, [], _ => by simp [listModify]
  | 0, 0, _ :: _, h => absurd rfl h
  | 0, _ + 1, _ :: _, _ => by simp [listModify]
  | _ + 1, 0, _ :: _, _ => by simp [listModify]
  | j + 1, k + 1, _ :: xs, h => by
      simpa [listModify] using listModify_getElem_ne g j k xs (by omega)

theorem selectMap_numVisibleMaps (i : Nat) (st : WorkspaceState) :
    (selectMap i st).mapViewOptions.numVisibleMaps =
      st.mapViewOptions.numVisibleMaps := by
  by_cases h : st.mapViewOptions.selectedMapIndex ≠ i
  · simp only [selectMap, if_pos h]
    split <;> rfl
  · simp only [selectMap, if_neg h]

/-- C3: `isMapVisible` — for every selected index in 0..3 and visible count
in {1, 2, 4}: the selected index is always visible; count 4 shows every
index; count 1 shows only the selected index; count 2 shows indices 0 and
1 together exactly when the selected index is 0 or 1, and indices 2 and 3
together otherwise. -/
theorem claim_C3_isMapVisible :
    ∀ sel, sel ∈ ([0, 1, 2, 3] : List Nat) → ∀ cnt, cnt ∈ ([1, 2, 4] : List Nat) →
      ∀ idx, idx ∈ ([0, 1, 2, 3] : List Nat) →
      (isMapVisible ⟨sel, cnt⟩ sel = true ∧
       (cnt = 4 → isMapVisible ⟨sel, cnt⟩ idx = true) ∧
       (cnt = 1 → (isMapVisible ⟨sel, cnt⟩ idx = true ↔ idx = sel)) ∧
       (cnt = 2 → sel < 2 → (isMapVisible ⟨sel, cnt⟩ idx = true ↔ idx < 2)) ∧
       (cnt = 2 → 2 ≤ sel → (isMapVisible ⟨sel, cnt⟩ idx = true ↔ 2 ≤ idx))) := by
  decide

/-- C3 witness: with `numVisibleMaps = 2` and `selectedMapIndex = 2`,
maps 2 and 3 are visible and maps 0 and 1 are not. -/
theorem claim_C3_witness :
    isMapVisible ⟨2, 2⟩ 2 = true ∧ isMapVisible ⟨2, 2⟩ 3 = true ∧
    isMapVisible ⟨2, 2⟩ 0 = false ∧ isMapVisible ⟨2, 2⟩ 1 = false := by
  have h2 := claim_C3_isMapVisible 2 (by decide) 2 (by decide) 2 (by decide)
  have h3 := claim_C3_isMapVisible 2 (by decide) 2 (by decide) 3 (by decide)
  exact ⟨h2.1, (h3.2.2.2.2 rfl (by decide)).mpr (by decide), by decide, by decide⟩

/-- C8 counterexample: `changeMapCount` performs no validation of its
argument — calling it with 3 stores 3, which is outside {1, 2, 4}. -/
theorem claim_C8_counterexample :
    (changeMapCount 3 demoState).mapViewOptions.numVisibleMaps = 3 ∧
    ¬((changeMapCount 3 demoState).mapViewOptions.numVisibleMaps = 1 ∨
      (changeMapCount 3 demoState).mapViewOptions.numVisibleMaps = 2 ∨
      (changeMapCount 3 demoState).mapViewOptions.numVisibleMaps = 4) := by
  exact ⟨rfl, by decide⟩

/-- C8 amended: `changeMapCount` stores its argument into `numVisibleMaps`
without validation; provided every `changeMapCount` call in a sequence of
operations passes a value in {1, 2, 4} (as every in-repo caller does) and
the initial value is in {1, 2, 4}, the stored `numVisibleMaps` remains in
{1, 2, 4} (selection changes never alter it). -/
theorem claim_C8_amended :
    ∀ (ops : List WorkspaceOp) (st : WorkspaceState),
      (st.mapViewOptions.numVisibleMaps = 1 ∨ st.mapViewOptions.numVisibleMaps = 2 ∨
        st.mapViewOptions.numVisibleMaps = 4) →
      (∀ n, WorkspaceOp.changeCount n ∈ ops → n = 1 ∨ n = 2 ∨ n = 4) →
      ((runOps st ops).mapViewOptions.numVisibleMaps = 1 ∨
       (runOps st ops).mapViewOptions.numVisibleMaps = 2 ∨
       (runOps st ops).mapViewOptions.numVisibleMaps = 4) := by
  intro ops
  induction ops with
  | nil =>
    intro st h _
    simpa [runOps] using h
  | cons op rest ih =>
    intro st h hops
    have hstep : ((applyOp st op).mapViewOptions.numVisibleMaps = 1 ∨
        (applyOp st op).mapViewOptions.numVisibleMaps = 2 ∨
        (applyOp st op).mapViewOptions.numVisibleMaps = 4) := by
      cases op with
      | select i =>
        simpa [applyOp, selectMap_numVisibleMaps] using h
      | changeCount n =>
        simpa [applyOp, changeMapCount] using hops n (List.mem_cons_self _ _)
    have hrun : runOps st (op :: rest) = runOps (applyOp st op) rest := rfl
    rw [hrun]
    exact ih (applyOp st op) hstep (fun n hn => hops n (List.mem_cons_of_mem _ hn))

/-- C8 amended, witness: a concrete sequence staying within {1, 2, 4}. -/
theorem claim_C8_witness :
    (runOps demoState [WorkspaceOp.changeCount 2, WorkspaceOp.select 1,
        WorkspaceOp.changeCount 1]).mapViewOptions.numVisibleMaps = 1 ∨
    (runOps demoState [WorkspaceOp.changeCount 2, WorkspaceOp.select 1,
        WorkspaceOp.changeCount 1]).mapViewOptions.numVisibleMaps = 2 ∨
    (runOps demoState [WorkspaceOp.changeCount 2, WorkspaceOp.select 1,
        WorkspaceOp.changeCount 1]).mapViewOptions.numVisibleMaps = 4 := by
  apply claim_C8_amended
  · exact Or.inr (Or.inr rfl)
  · intro n hn
    simp only [List.mem_cons, List.not_mem_nil, or_false] at hn
    rcases hn with h | h | h
    · cases h; exact Or.inr (Or.inl rfl)
    · cases h
    · cases h; exact Or.inl rfl

/-- C9 counterexample: at teardown (`ngOnDestroy`) the component writes
only the map configs — its write list contains no `setMapViewOptions`
write, while an autosave interval tick writes both. -/
theorem claim_C9_counterexample :
    (ngOnDestroyWrites demoState).any isViewOptionsWrite = false ∧
    (sessionIntervalTickWrites demoState).any isViewOptionsWrite = true := by
  decide

/-- C9 amended: each autosave interval tick persists both the current
view options and the ordered list of all viewport configs; teardown
(`ngOnDestroy`) persists only the viewport-config list and issues no
view-options write. -/
theorem claim_C9_amended (st : WorkspaceState) :
    (SessionWrite.viewOptions st.mapViewOptions ∈ sessionIntervalTickWrites st ∧
     SessionWrite.mapConfigs (st.maps.map (fun m => m.config)) ∈
       sessionIntervalTickWrites st) ∧
    (SessionWrite.mapConfigs (st.maps.map (fun m => m.config)) ∈
       ngOnDestroyWrites st ∧
     (ngOnDestroyWrites st).any isViewOptionsWrite = false) := by
  refine ⟨⟨?_, ?_⟩, ?_, ?_⟩
  · simp [sessionIntervalTickWrites]
  · simp [sessionIntervalTickWrites]
  · simp [ngOnDestroyWrites]
  · simp [ngOnDestroyWrites, isViewOptionsWrite]

/-- C10: a successful selection change (different index) synchronously
appends a `setMapViewOptions` write carrying the updated options to the
session-service write log within the same call, while a same-index call
writes nothing. -/
theorem claim_C10_selectMap_persists (st : WorkspaceState) (i : Nat) :
    (i = st.mapViewOptions.selectedMapIndex →
      (selectMap i st).sessionWrites = st.sessionWrites) ∧
    (i ≠ st.mapViewOptions.selectedMapIndex →
      (selectMap i st).sessionWrites =
        st.sessionWrites ++
          [SessionWrite.viewOptions
            { st.mapViewOptions with selectedMapIndex := i }]) := by
  constructor
  · intro h
    simp [selectMap, h]
  · intro h
    have hcond : st.mapViewOptions.selectedMapIndex ≠ i := fun e => h e.symm
    simp only [selectMap, if_pos hcond]
    split <;> rfl

/-- C10 witness: selecting map 1 from map 0 writes the updated options;
re-selecting map 0 writes nothing. -/
theorem claim_C10_witness :
    (selectMap 0 demoState).sessionWrites = demoState.sessionWrites ∧
    (selectMap 1 demoState).sessionWrites =
      demoState.sessionWrites ++
        [SessionWrite.viewOptions
          { demoState.mapViewOptions with selectedMapIndex := 1 }] := by
  exact ⟨(claim_C10_selectMap_persists demoState 0).1 rfl,
         (claim_C10_selectMap_persists demoState 1).2 (by decide)⟩

/-- C1: `selectMap` with the currently selected index is a no-op (the state
is unchanged, so no dependent side effects fire); with a different index
while the drawing session is active and not idle (DRAW action selected or
a confirmable shape exists) it updates `selectedMapIndex`, demotes the
previously selected map (polygon tool disabled, drawing control removed,
cloned read-only overlay shown) and promotes the newly selected map
(drawing control attached, cloned overlay hidden), leaving every other
map untouched. -/
theorem claim_C1_selectMap (st : WorkspaceState) (i : Nat) :
    (selectMap st.mapViewOptions.selectedMapIndex st = st) ∧
    (i ≠ st.mapViewOptions.selectedMapIndex →
     (st.selectedAreaCreationAction = AreaCreationAction.DRAW ∨
       st.showConfirmAreaButton = true) →
     ((selectMap i st).mapViewOptions.selectedMapIndex = i ∧
      ((selectMap i st).maps)[st.mapViewOptions.selectedMapIndex]? =
        (st.maps[st.mapViewOptions.selectedMapIndex]?).map
          (fun m => showClonedDrawing (removeDrawingControl
            (disablePolygonDrawingTool m))) ∧
      ((selectMap i st).maps)[i]? =
        (st.maps[i]?).map (fun m => hideClonedDrawing (addDrawingControl m)) ∧
      (∀ j, j ≠ i → j ≠ st.mapViewOptions.selectedMapIndex →
        ((selectMap i st).maps)[j]? = st.maps[j]?))) := by
  constructor
  · simp [selectMap]
  · intro hne hact
    have hcond : st.mapViewOptions.selectedMapIndex ≠ i := fun e => hne e.symm
    have hsel : selectMap i st =
        modifyMap i (fun m => hideClonedDrawing (addDrawingControl m))
          (modifyMap st.mapViewOptions.selectedMapIndex
            (fun m => showClonedDrawing (removeDrawingControl
              (disablePolygonDrawingTool m)))
            { st with
              mapViewOptions := { st.mapViewOptions with selectedMapIndex := i },
              sessionWrites := st.sessionWrites ++
                [SessionWrite.viewOptions
                  { st.mapViewOptions with selectedMapIndex := i }] }) := by
      simp only [selectMap, if_pos hcond]
      rcases hact with h | h <;> simp [h]
    refine ⟨by rw [hsel]; rfl, ?_, ?_, ?_⟩
    · rw [hsel]
      show (listModify _ i (listModify _ st.mapViewOptions.selectedMapIndex
        st.maps))[st.mapViewOptions.selectedMapIndex]? = _
      rw [listModify_getElem_ne _ _ _ _ hcond,
        listModify_getElem_self]
    · rw [hsel]
      show (listModify _ i (listModify _ st.mapViewOptions.selectedMapIndex
        st.maps))[i]? = _
      rw [listModify_getElem_self,
        listModify_getElem_ne _ _ _ _ (fun e => hcond e.symm)]
    · intro j hji hjsel
      rw [hsel]
      show (listModify _ i (listModify _ st.mapViewOptions.selectedMapIndex
        st.maps))[j]? = _
      rw [listModify_getElem_ne _ _ _ _ hji,
        listModify_getElem_ne _ _ _ _ hjsel]

/-- C1 witness: with DRAW active and map 0 selected, selecting map 1
transfers the drawing control from map 0 to map 1; re-selecting map 0 is
a no-op. -/
theorem claim_C1_witness :
    selectMap demoDrawState.mapViewOptions.selectedMapIndex demoDrawState =
      demoDrawState ∧
    (selectMap 1 demoDrawState).mapViewOptions.selectedMapIndex = 1 ∧
    ((selectMap 1 demoDrawState).maps)[demoDrawState.mapViewOptions.selectedMapIndex]? =
      (demoDrawState.maps[demoDrawState.mapViewOptions.selectedMapIndex]?).map
        (fun m => showClonedDrawing (removeDrawingControl
          (disablePolygonDrawingTool m))) ∧
    ((selectMap 1 demoDrawState).maps)[1]? =
      (demoDrawState.maps[1]?).map
        (fun m => hideClonedDrawing (addDrawingControl m)) ∧
    ((selectMap 1 demoDrawState).maps)[3]? = demoDrawState.maps[3]? := by
  have h := (claim_C1_selectMap demoDrawState 1).2 (by decide) (Or.inl rfl)
  exact ⟨(claim_C1_selectMap demoDrawState 1).1, h.1, h.2.1, h.2.2.1,
    h.2.2.2 3 (by decide) (by decide)⟩

/-- C2: after phase 1 of session restore, once the boundary catalog
arrives every map's boundary selection is reconciled by name: if the
catalog's first entry with the persisted selection's name exists, that
catalog entry becomes the map's boundary (and it indeed lies in the
catalog and carries the matched name); if no catalog entry carries that
name, the boundary becomes the `NONE_BOUNDARY_CONFIG` sentinel. -/
theorem claim_C2_restore_reconciles (persistedOpts : Option MapViewOptions)
    (persistedConfigs : Option (List MapConfig)) (catalog : List BoundaryConfig)
    (st : WorkspaceState) (j : Nat) (m₀ : Map)
    (h : (restoreApplyPersisted persistedOpts persistedConfigs st).maps[j]? = some m₀) :
    ∃ m₁,
      (restoreSession persistedOpts persistedConfigs catalog st).maps[j]? = some m₁ ∧
      ((∀ b ∈ catalog, b.boundary_name ≠ m₀.config.boundaryLayerConfig.boundary_name) →
        m₁.config.boundaryLayerConfig = NONE_BOUNDARY_CONFIG) ∧
      (∀ b, catalog.find? (fun c =>
            c.boundary_name == m₀.config.boundaryLayerConfig.boundary_name) = some b →
        m₁.config.boundaryLayerConfig = b ∧ b ∈ catalog ∧
          b.boundary_name = m₀.config.boundaryLayerConfig.boundary_name) := by
  refine ⟨{ m₀ with config := { m₀.config with
      boundaryLayerConfig :=
        lookupBoundary catalog m₀.config.boundaryLayerConfig.boundary_name } },
    ?_, ?_, ?_⟩
  · show (reconcileBoundaries catalog
      (restoreApplyPersisted persistedOpts persistedConfigs st)).maps[j]? = _
    rw [reconcileBoundaries]
    simp only [List.getElem?_map, h]
    rfl
  · intro hnone
    have hfind : catalog.find? (fun c =>
        c.boundary_name == m₀.config.boundaryLayerConfig.boundary_name) = none := by
      rw [List.find?_eq_none]
      intro b hb
      simpa using hnone b hb
    simp [lookupBoundary, hfind]
  · intro b hb
    have hmem : b ∈ catalog := List.mem_of_find?_eq_some hb
    have hname := List.find?_some hb
    refine ⟨?_, hmem, by simpa using hname⟩
    simp [lookupBoundary, hb]

/-- C2 witness: restoring a session whose viewport 0 persisted a boundary
named HUC12, then receiving a catalog containing a same-named entry with
a different payload, leaves viewport 0 holding the catalog entry, not
the persisted object. -/
theorem claim_C2_witness :
    ∃ m₁,
      (restoreSession none (some [huc12PersistedConfig]) [huc12CatalogEntry]
        demoState).maps[0]? = some m₁ ∧
      m₁.config.boundaryLayerConfig = huc12CatalogEntry ∧
      m₁.config.boundaryLayerConfig ≠ huc12PersistedConfig.boundaryLayerConfig := by
  obtain ⟨m₁, hm, _, hfound⟩ := claim_C2_restore_reconciles none
    (some [huc12PersistedConfig]) [huc12CatalogEntry] demoState 0
    { demoMap "map1" "Map 1" with config := huc12PersistedConfig } rfl
  obtain ⟨heq, _, _⟩ := hfound huc12CatalogEntry (by decide)
  exact ⟨m₁, hm, heq, by rw [heq]; decide⟩

/-- C6: when a file was supplied but parsing throws, or the parsed result
is not structurally a `FeatureCollection`, `loadArea` only emits the
invalid-shapefile notice: no geometry is added to the drawing session,
the upload panel visibility is unchanged (stays open), and no map's
drawing controls are touched, so the user may retry. -/
theorem claim_C6_loadArea_invalid (st : WorkspaceState)
    (parsed : Except Unit GeoJson)
    (h : parsed = Except.error () ∨
      ∃ g, parsed = Except.ok g ∧ g.type ≠ "FeatureCollection") :
    loadArea true parsed st =
      { st with snackbarMessages :=
          st.snackbarMessages ++ ["[Error] Not a valid shapefile!"] } ∧
    (loadArea true parsed st).drawnPolygons = st.drawnPolygons ∧
    (loadArea true parsed st).showUploader = st.showUploader ∧
    (loadArea true parsed st).maps = st.maps ∧
    (loadArea true parsed st).sessionWrites = st.sessionWrites := by
  have hrun : loadArea true parsed st = showUploadError st := by
    rcases h with h | ⟨g, hg, hne⟩
    · rw [h]
      rfl
    · rw [hg]
      show (if g.type = "FeatureCollection" then _ else showUploadError st) = _
      rw [if_neg hne]
  rw [hrun]
  exact ⟨rfl, rfl, rfl, rfl, rfl⟩

/-- C6 witness: an archive parsing to a bare `Point` geometry (not a
feature collection) produces only the notice and changes nothing else. -/
theorem claim_C6_witness :
    loadArea true (Except.ok { type := "Point", content := "" }) demoState =
      { demoState with snackbarMessages :=
          demoState.snackbarMessages ++ ["[Error] Not a valid shapefile!"] } ∧
    (loadArea true (Except.ok { type := "Point", content := "" })
        demoState).drawnPolygons = demoState.drawnPolygons := by
  have h := claim_C6_loadArea_invalid demoState
    (Except.ok { type := "Point", content := "" })
    (Or.inr ⟨{ type := "Point", content := "" }, rfl, by decide⟩)
  exact ⟨h.1, h.2.1⟩

/-- C7: plan creation with no selected region fails locally with the
no-region notice and issues no service call at all; with a region it
issues exactly one request to the plan service (no retry), and a
returned error is surfaced as the backend-error notice with no
navigation. -/
theorem claim_C7_createPlan (name : String) (shape : GeoJson)
    (selectedRegion : Option String) (sr : PlanServiceResult) :
    (selectedRegion = none →
      createPlan name shape selectedRegion sr =
        { snackbarMessages := ["[Error] Please select a region!"],
          serviceCalls := [], navigations := [] }) ∧
    (∀ r, selectedRegion = some r →
      (createPlan name shape selectedRegion sr).serviceCalls =
        [{ name := name, ownerId := "tempUserId", region := r,
           planningArea := shape }] ∧
      (sr = PlanServiceResult.err →
        (createPlan name shape selectedRegion sr).snackbarMessages =
          ["[Error] Unable to create plan due to backend error."] ∧
        (createPlan name shape selectedRegion sr).navigations = [])) := by
  constructor
  · intro h
    rw [h]
    rfl
  · intro r hr
    rw [hr]
    cases sr with
    | ok planId => exact ⟨rfl, fun h => by cases h⟩
    | err => exact ⟨rfl, fun _ => ⟨rfl, rfl⟩⟩

/-- C7 witness: `createPlan("My Plan", shape, region = undefined)` fails
immediately with the no-region notice and zero service calls, while the
same call with a region issues exactly one request. -/
theorem claim_C7_witness :
    createPlan "My Plan" { type := "FeatureCollection", content := "" } none
        PlanServiceResult.err =
      { snackbarMessages := ["[Error] Please select a region!"],
        serviceCalls := [], navigations := [] } ∧
    (createPlan "My Plan" { type := "FeatureCollection", content := "" }
        (some "SIERRA_NEVADA") PlanServiceResult.err).serviceCalls =
      [{ name := "My Plan", ownerId := "tempUserId", region := "SIERRA_NEVADA",
         planningArea := { type := "FeatureCollection", content := "" } }] := by
  exact ⟨(claim_C7_createPlan "My Plan"
      { type := "FeatureCollection", content := "" } none PlanServiceResult.err).1 rfl,
    ((claim_C7_createPlan "My Plan" { type := "FeatureCollection", content := "" }
      (some "SIERRA_NEVADA") PlanServiceResult.err).2 "SIERRA_NEVADA" rfl).1⟩

/- Lemmas about the bounded-depth filepath search. -/

theorem findMetricLoop_eq_none (fp : String) (t p e : ConditionsNode) :
    ∀ (ms : ConditionsForest), fpInMetrics fp ms = false →
      findMetricLoop fp t p e ms = none
  | ConditionsForest.nil, _ => rfl
  | ConditionsForest.cons m ms, h => by
      rw [fpInMetrics] at h
      by_cases hm : m.filepath = some fp
      · rw [if_pos hm] at h
        cases h
      · rw [if_neg hm] at h
        rw [findMetricLoop, if_neg hm]
        exact findMetricLoop_eq_none fp t p e ms h

theorem findElementLoop_eq_none (fp : String) (t p : ConditionsNode) :
    ∀ (es : ConditionsForest), fpInElements fp es = false →
      findElementLoop fp t p es = none
  | ConditionsForest.nil, _ => rfl
  | ConditionsForest.cons e es, h => by
      rw [fpInElements] at h
      by_cases he : e.filepath = some fp
      · rw [if_pos he] at h
        cases h
      · rw [if_neg he] at h
        by_cases hm : fpInMetrics fp e.children = true
        · rw [if_pos hm] at h
          cases h
        · rw [if_neg hm] at h
          have hm0 : findMetricLoop fp t p e e.children = none :=
            findMetricLoop_eq_none fp t p e e.children (by simpa using hm)
          rw [findElementLoop, if_neg he, hm0]
          exact findElementLoop_eq_none fp t p es h

theorem findPillarLoop_eq_none (fp : String) (t : ConditionsNode) :
    ∀ (ps : ConditionsForest), fpInPillars fp ps = false →
      findPillarLoop fp t ps = none
  | ConditionsForest.nil, _ => rfl
  | ConditionsForest.cons p ps, h => by
      rw [fpInPillars] at h
      by_cases hp : p.filepath = some fp
      · rw [if_pos hp] at h
        cases h
      · rw [if_neg hp] at h
        by_cases he : fpInElements fp p.children = true
        · rw [if_pos he] at h
          cases h
        · rw [if_neg he] at h
          have he0 : findElementLoop fp t p p.children = none :=
            findElementLoop_eq_none fp t p p.children (by simpa using he)
          rw [findPillarLoop, if_neg hp, he0]
          exact findPillarLoop_eq_none fp t ps h

theorem findTreeLoop_eq_none (fp : String) :
    ∀ (ts : ConditionsForest), fpInTrees fp ts = false →
      findTreeLoop fp ts = none
  | ConditionsForest.nil, _ => rfl
  | ConditionsForest.cons t ts, h => by
      rw [fpInTrees] at h
      by_cases ht : t.filepath = some fp
      · rw [if_pos ht] at h
        cases h
      · rw [if_neg ht] at h
        by_cases hp : fpInPillars fp t.children = true
        · rw [if_pos hp] at h
          cases h
        · rw [if_neg hp] at h
          have hp0 : findPillarLoop fp t t.children = none :=
            findPillarLoop_eq_none fp t t.children (by simpa using hp)
          rw [findTreeLoop, if_neg ht, hp0]
          exact findTreeLoop_eq_none fp ts h

theorem findMetricLoop_spec (fp : String) (t p e : ConditionsNode) :
    ∀ (ms : ConditionsForest) (n : ConditionsNode) (exps : List ConditionsNode),
      findMetricLoop fp t p e ms = some (n, exps) →
      n.filepath = some fp ∧ exps = [t, p, e] ∧ memF n ms
  | ConditionsForest.nil, n, exps, h => by simp [findMetricLoop] at h
  | ConditionsForest.cons m ms, n, exps, h => by
      rw [findMetricLoop] at h
      by_cases hm : m.filepath = some fp
      · rw [if_pos hm] at h
        simp only [Option.some.injEq, Prod.mk.injEq] at h
        obtain ⟨rfl, rfl⟩ := h
        exact ⟨hm, rfl, Or.inl rfl⟩
      · rw [if_neg hm] at h
        obtain ⟨h1, h2, h3⟩ := findMetricLoop_spec fp t p e ms n exps h
        exact ⟨h1, h2, Or.inr h3⟩

theorem findElementLoop_spec (fp : String) (t p : ConditionsNode) :
    ∀ (es : ConditionsForest) (n : ConditionsNode) (exps : List ConditionsNode),
      findElementLoop fp t p es = some (n, exps) →
      n.filepath = some fp ∧
      ((exps = [t, p] ∧ memF n es) ∨
       ∃ el, memF el es ∧ exps = [t, p, el] ∧ memF n el.children)
  | ConditionsForest.nil, n, exps, h => by simp [findElementLoop] at h
  | ConditionsForest.cons e es, n, exps, h => by
      rw [findElementLoop] at h
      by_cases he : e.filepath = some fp
      · rw [if_pos he] at h
        simp only [Option.some.injEq, Prod.mk.injEq] at h
        obtain ⟨rfl, rfl⟩ := h
        exact ⟨he, Or.inl ⟨rfl, Or.inl rfl⟩⟩
      · rw [if_neg he] at h
        cases hm : findMetricLoop fp t p e e.children with
        | some r =>
          rw [hm] at h
          obtain ⟨n0, exps0⟩ := r
          have hr := Option.some.inj h
          simp only [Prod.mk.injEq] at hr
          obtain ⟨rfl, rfl⟩ := hr
          obtain ⟨h1, h2, h3⟩ := findMetricLoop_spec fp t p e e.children n0 exps0 hm
          exact ⟨h1, Or.inr ⟨e, Or.inl rfl, h2, h3⟩⟩
        | none =>
          rw [hm] at h
          obtain ⟨h1, hrest⟩ := findElementLoop_spec fp t p es n exps h
          refine ⟨h1, ?_⟩
          rcases hrest with ⟨h2, h3⟩ | ⟨el, hel, h2, h3⟩
          · exact Or.inl ⟨h2, Or.inr h3⟩
          · exact Or.inr ⟨el, Or.inr hel, h2, h3⟩

theorem findPillarLoop_spec (fp : String) (t : ConditionsNode) :
    ∀ (ps : ConditionsForest) (n : ConditionsNode) (exps : List ConditionsNode),
      findPillarLoop fp t ps = some (n, exps) →
      n.filepath = some fp ∧
      ((exps = [t] ∧ memF n ps) ∨
       ∃ pl, memF pl ps ∧
         ((exps = [t, pl] ∧ memF n pl.children) ∨
          ∃ el, memF el pl.children ∧ exps = [t, pl, el] ∧ memF n el.children))
  | ConditionsForest.nil, n, exps, h => by simp [findPillarLoop] at h
  | ConditionsForest.cons p ps, n, exps, h => by
      rw [findPillarLoop] at h
      by_cases hp : p.filepath = some fp
      · rw [if_pos hp] at h
        simp only [Option.some.injEq, Prod.mk.injEq] at h
        obtain ⟨rfl, rfl⟩ := h
        exact ⟨hp, Or.inl ⟨rfl, Or.inl rfl⟩⟩
      · rw [if_neg hp] at h
        cases he : findElementLoop fp t p p.children with
        | some r =>
          rw [he] at h
          obtain ⟨n0, exps0⟩ := r
          have hr := Option.some.inj h
          simp only [Prod.mk.injEq] at hr
          obtain ⟨rfl, rfl⟩ := hr
          obtain ⟨h1, hrest⟩ := findElementLoop_spec fp t p p.children n0 exps0 he
          refine ⟨h1, Or.inr ⟨p, Or.inl rfl, ?_⟩⟩
          rcases hrest with ⟨h2, h3⟩ | ⟨el, hel, h2, h3⟩
          · exact Or.inl ⟨h2, h3⟩
          · exact Or.inr ⟨el, hel, h2, h3⟩
        | none =>
          rw [he] at h
          obtain ⟨h1, hrest⟩ := findPillarLoop_spec fp t ps n exps h
          refine ⟨h1, ?_⟩
          rcases hrest with ⟨h2, h3⟩ | ⟨pl, hpl, hrest2⟩
          · exact Or.inl ⟨h2, Or.inr h3⟩
          · exact Or.inr ⟨pl, Or.inr hpl, hrest2⟩

theorem ancestorChainOk_cons (x : ConditionsNode) (ts : ConditionsForest)
    (n : ConditionsNode) :
    ∀ (exps : List ConditionsNode), ancestorChainOk ts n exps →
      ancestorChainOk (ConditionsForest.cons x ts) n exps
  | [], h => Or.inr h
  | [_], h => ⟨Or.inr h.1, h.2⟩
  | [_, _], h => ⟨Or.inr h.1, h.2⟩
  | [_, _, _], h => ⟨Or.inr h.1, h.2⟩
  | _ :: _ :: _ :: _ :: _, h => absurd h (by simp [ancestorChainOk])

theorem findTreeLoop_spec (fp : String) :
    ∀ (ts : ConditionsForest) (n : ConditionsNode) (exps : List ConditionsNode),
      findTreeLoop fp ts = some (n, exps) →
      n.filepath = some fp ∧ ancestorChainOk ts n exps
  | ConditionsForest.nil, n, exps, h => by simp [findTreeLoop] at h
  | ConditionsForest.cons tree ts, n, exps, h => by
      rw [findTreeLoop] at h
      by_cases ht : tree.filepath = some fp
      · rw [if_pos ht] at h
        simp only [Option.some.injEq, Prod.mk.injEq] at h
        obtain ⟨rfl, rfl⟩ := h
        exact ⟨ht, Or.inl rfl⟩
      · rw [if_neg ht] at h
        cases hp : findPillarLoop fp tree tree.children with
        | some r =>
          rw [hp] at h
          obtain ⟨n0, exps0⟩ := r
          have hr := Option.some.inj h
          simp only [Prod.mk.injEq] at hr
          obtain ⟨rfl, rfl⟩ := hr
          obtain ⟨h1, hrest⟩ := findPillarLoop_spec fp tree tree.children n0 exps0 hp
          refine ⟨h1, ?_⟩
          rcases hrest with ⟨h2, h3⟩ | ⟨pl, hpl, hrest2⟩
          · rw [h2]
            exact ⟨Or.inl rfl, h3⟩
          · rcases hrest2 with ⟨h2, h3⟩ | ⟨el, hel, h2, h3⟩
            · rw [h2]
              exact ⟨Or.inl rfl, hpl, h3⟩
            · rw [h2]
              exact ⟨Or.inl rfl, hpl, hel, h3⟩
        | none =>
          rw [hp] at h
          obtain ⟨h1, h2⟩ := findTreeLoop_spec fp ts n exps h
          exact ⟨h1, ancestorChainOk_cons tree ts n exps h2⟩

/-- C4: after `onSelect` on the node at path
`j :: q` has `styleDisabled = true` exactly when it is a strict
descendant of the selected node (`j = k`, `rest` a proper prefix of `q`);
the selected node itself, its siblings and its ancestors end up with
`styleDisabled = false`; and because the operation is a full reset
followed by a scoped cascade, selecting the same node twice equals
selecting it once. -/
theorem claim_C4_onSelect (data : ConditionsForest) (k : Nat) (rest : List Nat) :
    (∀ j q n, getAtForest (onSelectAt data k rest) j q = some n →
      (n.styleDisabled = true ↔ (j = k ∧ rest <+: q ∧ rest ≠ q))) ∧
    onSelectAt (onSelectAt data k rest) k rest = onSelectAt data k rest := by
  constructor
  · intro j q n hget
    by_cases hb : j = k ∧ rest <+: q
    · obtain ⟨rfl, hpre⟩ := hb
      obtain ⟨ex, rfl⟩ := hpre
      rw [onSelectAt, getAt_modifyAtForest_below] at hget
      cases hm : getAtForest (unstyleForest data) j rest with
      | none =>
        rw [hm] at hget
        simp at hget
      | some m =>
        rw [hm] at hget
        simp only [Option.some_bind] at hget
        cases ex with
        | nil =>
          have hn : n = styleDescendantsDisabled m := by
            cases m
            simp [getAtNode, styleDescendantsDisabled] at hget
            simp [styleDescendantsDisabled, ← hget]
          have hflagm : m.styleDisabled = false := by
            have h2 := getAt_unstyleForest data j rest
            rw [hm] at h2
            cases h3 : getAtForest data j rest with
            | none =>
              rw [h3] at h2
              simp at h2
            | some m0 =>
              rw [h3] at h2
              simp only [Option.map_some'] at h2
              rw [Option.some.inj h2]
              exact unstyleNode_styleDisabled m0
          constructor
          · intro ht
            rw [hn, styleDescendantsDisabled_styleDisabled, hflagm] at ht
            cases ht
          · rintro ⟨-, -, hne⟩
            simp at hne
        | cons e ex2 =>
          have hflag : n.styleDisabled = true := by
            cases m with
            | mk d fp cm nz ds sd cs =>
              simp only [styleDescendantsDisabled, getAtNode] at hget
              rw [getAt_setStyledForest] at hget
              cases h3 : getAtForest cs e ex2 with
              | none =>
                rw [h3] at hget
                simp at hget
              | some w =>
                rw [h3] at hget
                simp only [Option.map_some'] at hget
                rw [← Option.some.inj hget]
                exact setStyledNode_styleDisabled w
          constructor
          · intro _
            refine ⟨rfl, ⟨e :: ex2, rfl⟩, ?_⟩
            intro he
            have hlen := congrArg List.length he
            simp at hlen
          · intro _
            exact hflag
    · have hflag := flag_modifyAtForest_ne styleDescendantsDisabled
        (unstyleForest data) k rest j q hb
      rw [onSelectAt] at hget
      rw [hget, getAt_unstyleForest] at hflag
      have hfalse : n.styleDisabled = false := by
        cases h3 : getAtForest data j q with
        | none =>
          rw [h3] at hflag
          simp at hflag
        | some m0 =>
          rw [h3] at hflag
          simp only [Option.map_some'] at hflag
          rw [Option.some.inj hflag, unstyleNode_styleDisabled]
      constructor
      · intro ht
        rw [hfalse] at ht
        cases ht
      · intro hc
        exact absurd ⟨hc.1, hc.2.1⟩ hb
  · rw [onSelectAt, onSelectAt, unstyleForest_modifyAtForest,
      unstyleForest_unstyleForest]

/-- C4 witness: selecting the demo pillar (path 1, [0]) in the demo forest
marks its strict descendants (element, metric) as style-disabled, leaves
the pillar itself unmarked, and selecting it twice equals selecting it
once. -/
theorem claim_C4_witness :
    onSelectAt (onSelectAt demoForest 1 [0]) 1 [0] = onSelectAt demoForest 1 [0] ∧
    (∃ n, getAtForest (onSelectAt demoForest 1 [0]) 1 [0, 0] = some n ∧
      n.styleDisabled = true) ∧
    (∃ n, getAtForest (onSelectAt demoForest 1 [0]) 1 [0, 0, 0] = some n ∧
      n.styleDisabled = true) ∧
    (∃ n, getAtForest (onSelectAt demoForest 1 [0]) 1 [0] = some n ∧
      n.styleDisabled = false) := by
  refine ⟨(claim_C4_onSelect demoForest 1 [0]).2, ⟨_, rfl, ?_⟩, ⟨_, rfl, ?_⟩,
    ⟨_, rfl, ?_⟩⟩
  · exact ((claim_C4_onSelect demoForest 1 [0]).1 1 [0, 0] _ rfl).mpr
      ⟨rfl, ⟨[0], rfl⟩, by decide⟩
  · exact ((claim_C4_onSelect demoForest 1 [0]).1 1 [0, 0, 0] _ rfl).mpr
      ⟨rfl, ⟨[0, 0], rfl⟩, by decide⟩
  · have hiff := (claim_C4_onSelect demoForest 1 [0]).1 1 [0] _ rfl
    rcases hval : ConditionsNode.styleDisabled
        (styleDescendantsDisabled (unstyleNode demoPillar)) with - | -
    · exact hval
    · exact absurd (hiff.mp hval) (by simp)

/-- C5: `findAndRevealNodeWithFilepath` returns the sentinel "none" node
for an undefined filepath, for the empty filepath, and when no node at
tree, pillar, element or metric depth carries the filepath; when the
bounded-depth search finds a node, the function returns exactly that
node (the search's first match) together with expand requests forming
its ancestor chain in order — empty for a top-level match, `[tree]`,
`[tree, pillar]` or `[tree, pillar, element]` for deeper matches — and,
being pure, it never mutates the tree. -/
theorem claim_C5_findByFilepath (data : ConditionsForest) (fp : String) :
    findAndRevealNodeWithFilepath data none = (NONE_DATA_LAYER_CONFIG, []) ∧
    findAndRevealNodeWithFilepath data (some "") = (NONE_DATA_LAYER_CONFIG, []) ∧
    (fpInTrees fp data = false →
      findAndRevealNodeWithFilepath data (some fp) = (NONE_DATA_LAYER_CONFIG, [])) ∧
    (∀ n exps, findTreeLoop fp data = some (n, exps) →
      n.filepath = some fp ∧ ancestorChainOk data n exps ∧
      (fp ≠ "" → findAndRevealNodeWithFilepath data (some fp) = (n, exps))) := by
  refine ⟨rfl, rfl, ?_, ?_⟩
  · intro h
    have h0 := findTreeLoop_eq_none fp data h
    rw [findAndRevealNodeWithFilepath]
    by_cases hfp : fp = "" ∨ some fp = NONE_DATA_LAYER_CONFIG.filepath
    · rw [if_pos hfp]
    · rw [if_neg hfp, h0]
  · intro n exps h
    obtain ⟨h1, h2⟩ := findTreeLoop_spec fp data n exps h
    refine ⟨h1, h2, ?_⟩
    intro hne
    have hcond : ¬(fp = "" ∨ some fp = NONE_DATA_LAYER_CONFIG.filepath) := by
      rintro (hc | hc)
      · exact hne hc
      · exact Option.noConfusion hc
    rw [findAndRevealNodeWithFilepath, if_neg hcond, h]

/-- C5 witness: on the demo forest, an undefined, empty or unmatched
filepath yields the sentinel; the metric's filepath returns exactly the
metric node with expand requests `[tree, pillar, element]`, and the
element's filepath returns the element with `[tree, pillar]`. -/
theorem claim_C5_witness :
    findAndRevealNodeWithFilepath demoForest none = (NONE_DATA_LAYER_CONFIG, []) ∧
    findAndRevealNodeWithFilepath demoForest (some "") =
      (NONE_DATA_LAYER_CONFIG, []) ∧
    findAndRevealNodeWithFilepath demoForest (some "no/such/path") =
      (NONE_DATA_LAYER_CONFIG, []) ∧
    findAndRevealNodeWithFilepath demoForest (some "t/p/e/m") =
      (demoMetric, [demoTree, demoPillar, demoElement]) ∧
    findAndRevealNodeWithFilepath demoForest (some "t/p/e") =
      (demoElement, [demoTree, demoPillar]) := by
  have hm := claim_C5_findByFilepath demoForest "t/p/e/m"
  have he := claim_C5_findByFilepath demoForest "t/p/e"
  have hn := claim_C5_findByFilepath demoForest "no/such/path"
  refine ⟨hm.1, hm.2.1, hn.2.2.1 rfl, ?_, ?_⟩
  · exact (hm.2.2.2 demoMetric [demoTree, demoPillar, demoElement] rfl).2.2
      (by decide)
  · exact (he.2.2.2 demoElement [demoTree, demoPillar] rfl).2.2 (by decide)

end Planscape
